import Mathlib

/-!
Shallow embedding of the subprocess-orchestration core of `redbot_orm`
(modules `common.py`, `postgres.py`, `registry.py`, `scaffold.py`, `cli.py`).

Filesystem paths, environment mappings and the Postgres server are modelled
explicitly: a path is a record of the observations `pathlib` supplies
(string form, stem, absoluteness), an environment or connection config is an
association list with Python-dict update semantics, and the server is the
list of database names it holds.  Subprocess and network effects are made
visible as explicit event lists so that ordering claims ("before any
database work") are statable.
-/

namespace RedbotOrm

/-! ### Python string primitives

The Python operations the source uses (`str.startswith`, `str.replace`,
`str.lower`, the `in` operator, `" ".join`) are modelled over the character
lists of Lean strings, so every definition evaluates by kernel reduction. -/

/-- Model of `s.startswith(pre)`. -/
def strStartsWith (s pre : String) : Bool :=
  pre.data.isPrefixOf s.data

/-- Model of `s.lower()` (ASCII case folding suffices for the names involved). -/
def strToLower (s : String) : String :=
  String.mk (s.data.map Char.toLower)

/-- Model of `s.replace(pat, rep)` on character lists: replace non-overlapping
occurrences left to right (no-op on the empty pattern, which the source
never uses).  The fuel argument — initialized to the list's length, which
every step strictly respects since a match consumes at least one
character — keeps the recursion structural so that terms reduce in the
kernel. -/
def listReplaceAux (pat rep : List Char) : Nat → List Char → List Char
  | _, [] => []
  | 0, l => l
  | fuel + 1, c :: rest =>
      if pat ≠ [] ∧ pat.isPrefixOf (c :: rest) then
        rep ++ listReplaceAux pat rep fuel (rest.drop (pat.length - 1))
      else c :: listReplaceAux pat rep fuel rest

/-- Model of `s.replace(pat, rep)` on character lists. -/
def listReplace (pat rep l : List Char) : List Char :=
  listReplaceAux pat rep l.length l

/-- Model of `s.replace(pat, rep)` lifted back to `String`. -/
def strReplace (s pat rep : String) : String :=
  String.mk (listReplace pat.data rep.data s.data)

/-- Python `pat in s` on character lists: some suffix starts with `pat`. -/
def listContainsPat : List Char → List Char → Bool
  | s, pat =>
      pat.isPrefixOf s ||
        (match s with
         | [] => false
         | _ :: rest => listContainsPat rest pat)

/-- Model of `" ".join(commands)`. -/
def joinSpace : List String → String
  | [] => ""
  | [c] => c
  | c :: rest => c ++ " " ++ joinSpace rest

/-- Model of a `pathlib.Path` value: its string form, its `stem`, and
whether `is_absolute()` holds (platform-dependent, so carried as data). -/
structure PPath where
  str : String
  stem : String
  isAbs : Bool
deriving DecidableEq, Repr

/-- Model of `common.get_root` / `db_name` dichotomy: a cog identity is either a bare
filesystem path or a live cog instance, from which a root directory, a
qualified name and a framework data directory are derived. -/
inductive CogId where
  | path (p : PPath)
  | cog (qualifiedName : String) (root : PPath) (dataDir : String)
deriving DecidableEq, Repr

/-- Model of `common.get_root`: the bare path itself, or the directory containing the
cog's source file. -/
def get_root : CogId → PPath
  | .path p => p
  | .cog _ root _ => root

/-- Model of `common.is_unc_path`: `path.is_absolute() and str(path).startswith("\\\\")`. -/
def is_unc_path (p : PPath) : Bool :=
  p.isAbs && strStartsWith p.str "\\\\"

/-- Model of `postgres.db_name`: path stem lower-cased, or qualified name lower-cased. -/
def db_name : CogId → String
  | .path p => strToLower p.stem
  | .cog q _ _ => strToLower q

/-- Python `pat in s` on strings. -/
def strContains (s pat : String) : Bool :=
  listContainsPat s.data pat.data

/-- An environment / connection-config mapping: an association list with
Python-dict semantics (lookup finds the first binding, assignment replaces
an existing binding in place or appends a fresh one). -/
abbrev Env := List (String × String)

namespace Env

/-- Model of `d[k]` lookup returning `none` when absent. -/
def get? : Env → String → Option String
  | [], _ => none
  | (k', v') :: rest, k => if k' = k then some v' else get? rest k

/-- Model of `d.get(k, default)`. -/
def getD (e : Env) (k d : String) : String :=
  (e.get? k).getD d

/-- Model of `d[k] = v`: replace the first binding of `k` or append one. -/
def set : Env → String → String → Env
  | [], k, v => [(k, v)]
  | (k', v') :: rest, k, v =>
      if k' = k then (k, v) :: rest else (k', v') :: set rest k v

end Env

/-! ## `common.get_env` -/

/-- Ambient facts `common.get_env` consults: the process environment, the
Downloader `lib` directory (existence and string form), the platform path
separator, and whether the platform is Windows (`os.name == "nt"`). -/
structure EnvWorld where
  ambient : Env
  libExists : Bool
  libPath : String
  pathSep : String
  isWindows : Bool
deriving DecidableEq, Repr

/-- The `DB_PATH` value of `common.get_env`: `cog / "db.sqlite"` for a bare
path, `cog_data_path(cog) / "db.sqlite"` for a live instance. -/
def dbPathOf : CogId → String
  | .path p => p.str ++ "/db.sqlite"
  | .cog _ _ dataDir => dataDir ++ "/db.sqlite"

/-- The prefix of `common.get_env` before the credential block: clone the
ambient environment, default `PICCOLO_CONF` only when absent, set `APP_NAME`
from the root's stem, prepend the Downloader lib path to `PYTHONPATH` when
it exists, set `DB_PATH`, and force UTF-8 I/O on Windows. -/
def get_env_base (cid : CogId) (w : EnvWorld) : Env :=
  let env := w.ambient
  let env := if (env.get? "PICCOLO_CONF").isSome then env
             else env.set "PICCOLO_CONF" "db.piccolo_conf"
  let env := env.set "APP_NAME" (get_root cid).stem
  let env :=
    if w.libExists then
      let existing := env.getD "PYTHONPATH" ""
      env.set "PYTHONPATH"
        (if existing = "" then w.libPath else w.libPath ++ w.pathSep ++ existing)
    else env
  let env := env.set "DB_PATH" (dbPathOf cid)
  if w.isWindows then env.set "PYTHONIOENCODING" "utf-8" else env

/-- Model of `common.get_env`: the base environment, overlaid with the five
`POSTGRES_*` variables exactly when a config — even an empty one — was
supplied (`postgres_config is not None`). -/
def get_env (cid : CogId) (w : EnvWorld) (postgres_config : Option Env) : Env :=
  match postgres_config with
  | none => get_env_base cid w
  | some cfg =>
      (((((get_env_base cid w).set "POSTGRES_USER" (cfg.getD "user" "postgres")).set
          "POSTGRES_PASSWORD" (cfg.getD "password" "postgres")).set
          "POSTGRES_DATABASE" (cfg.getD "database" "postgres")).set
          "POSTGRES_HOST" (cfg.getD "host" "localhost")).set
          "POSTGRES_PORT" (cfg.getD "port" "5432")

/-- The keys `get_env` may assign (beyond the five credential keys). -/
def getEnvBaseKeys : List String :=
  ["PICCOLO_CONF", "APP_NAME", "PYTHONPATH", "DB_PATH", "PYTHONIOENCODING"]

/-- The five credential keys of `get_env`. -/
def postgresKeys : List String :=
  ["POSTGRES_USER", "POSTGRES_PASSWORD", "POSTGRES_DATABASE",
   "POSTGRES_HOST", "POSTGRES_PORT"]

/-! ## `common.find_piccolo_executable` and `common.get_piccolo_command` -/

/-- The world `find_piccolo_executable`/`get_piccolo_command` observe: the
directories of the process `PATH`, the set of existing filesystem entries,
the Downloader `lib` directory and its immediate subdirectories, the running
interpreter (`sys.executable`) and its parent directory, and whether
`importlib.util.find_spec("piccolo")` succeeds. -/
structure ToolWorld where
  pathDirs : List String
  existing : List String
  libExists : Bool
  libFolders : List String
  sysExecutable : String
  sysExecDir : String
  piccoloImportable : Bool
deriving DecidableEq, Repr

/-- Model of `Path(dir) / name` joined textually. -/
def joinPath (d n : String) : String := d ++ "/" ++ n

/-- Candidates of the first loop of `find_piccolo_executable`: for each
`PATH` directory, `piccolo` then `piccolo.exe`. -/
def pathCandidates (w : ToolWorld) : List String :=
  w.pathDirs.flatMap (fun d => [joinPath d "piccolo", joinPath d "piccolo.exe"])

/-- Candidates of the Downloader-lib loop: each immediate subdirectory of
the lib path, `piccolo` then `piccolo.exe`; the loop runs only when the lib
directory exists. -/
def libCandidates (w : ToolWorld) : List String :=
  if w.libExists then
    w.libFolders.flatMap (fun d => [joinPath d "piccolo", joinPath d "piccolo.exe"])
  else []

/-- Model of `common.find_piccolo_executable`: first existing candidate on `PATH`,
then in the Downloader lib subdirectories, then `Path(sys.executable).parent
/ "piccolo"`; `FileNotFoundError` (modelled as `Except.error`) otherwise. -/
def find_piccolo_executable (w : ToolWorld) : Except String String :=
  match (pathCandidates w).find? (fun p => w.existing.contains p) with
  | some p => .ok p
  | none =>
    match (libCandidates w).find? (fun p => w.existing.contains p) with
    | some p => .ok p
    | none =>
      let defaultPath := joinPath w.sysExecDir "piccolo"
      if w.existing.contains defaultPath then .ok defaultPath
      else .error "Piccolo package not found!"

/-- Model of `common.get_piccolo_command`: the executable as a one-element command
prefix when found, else the module-invocation fallback when `piccolo` is
importable, else the `FileNotFoundError` propagates. -/
def get_piccolo_command (w : ToolWorld) : Except String (List String) :=
  match find_piccolo_executable w with
  | .ok p => .ok [p]
  | .error e =>
      if w.piccoloImportable then .ok [w.sysExecutable, "-m", "piccolo.main"]
      else .error e

/-! ## `common._sanitize_output` and `common.run_shell` -/

/-- Model of `common._sanitize_output`: replace a fixed set of emoji glyphs with
bracketed ASCII tags. -/
def sanitize_output (text : String) : String :=
  strReplace (strReplace (strReplace (strReplace (strReplace (strReplace
    text "👍" "[OK]") "🚀" "[LAUNCH]") "✅" "[DONE]") "❌" "[FAIL]") "⚠️" "[WARN]")
    "🔧" "[FIX]"

/-- A UTF-8 continuation byte. -/
def isContByte (b : Nat) : Bool := 0x80 ≤ b && b < 0xC0

/-- Model of `bytes.decode("utf-8", errors="ignore")`: standard UTF-8 decoding where
every byte that cannot start or complete a valid sequence is dropped
(`ignore`, not `replace`).  Surrogate code points are rejected as in
CPython.  Fuel — initialized to the list's length, strictly respected since
every step consumes at least one byte — keeps the recursion structural. -/
def utf8DecodeAux : Nat → List Nat → List Char
  | _, [] => []
  | 0, _ => []
  | fuel + 1, b :: rest =>
    if b < 0x80 then Char.ofNat b :: utf8DecodeAux fuel rest
    else if b < 0xC2 then utf8DecodeAux fuel rest
    else if b < 0xE0 then
      match rest with
      | [] => []
      | c1 :: r =>
        if isContByte c1 then
          Char.ofNat ((b - 0xC0) * 64 + (c1 - 0x80)) :: utf8DecodeAux fuel r
        else utf8DecodeAux fuel (c1 :: r)
    else if b < 0xF0 then
      match rest with
      | c1 :: c2 :: r =>
        if isContByte c1 && isContByte c2 then
          let v := (b - 0xE0) * 4096 + (c1 - 0x80) * 64 + (c2 - 0x80)
          if v < 0x800 || (0xD800 ≤ v && v ≤ 0xDFFF) then
            utf8DecodeAux fuel (c1 :: c2 :: r)
          else Char.ofNat v :: utf8DecodeAux fuel r
        else utf8DecodeAux fuel (c1 :: c2 :: r)
      | r => utf8DecodeAux fuel r
    else if b < 0xF5 then
      match rest with
      | c1 :: c2 :: c3 :: r =>
        if isContByte c1 && isContByte c2 && isContByte c3 then
          let v := (b - 0xF0) * 262144 + (c1 - 0x80) * 4096 +
            (c2 - 0x80) * 64 + (c3 - 0x80)
          if v < 0x10000 || 0x110000 ≤ v then
            utf8DecodeAux fuel (c1 :: c2 :: c3 :: r)
          else Char.ofNat v :: utf8DecodeAux fuel r
        else utf8DecodeAux fuel (c1 :: c2 :: c3 :: r)
      | r => utf8DecodeAux fuel r
    else utf8DecodeAux fuel rest

/-- Decode a byte list as `run_shell` does and pack it into a `String`. -/
def decodeBytes (bs : List Nat) : String :=
  String.mk (utf8DecodeAux bs.length bs)

/-- Where a child stream is routed by `subprocess.run`. -/
inductive StreamDest where
  | piped
  | hostStdout
deriving DecidableEq, Repr

/-- What the child process would write on each stream, as raw bytes. -/
structure ChildOutput where
  stdoutBytes : List Nat
  stderrBytes : List Nat
deriving DecidableEq, Repr

/-- The observable outcome of one `run_shell` invocation: the command that
was handed to `subprocess.run` (a joined string in shell mode, the argument
list otherwise), where each stream was routed, and the text returned. -/
structure RunShellResult where
  shellCommand : Option String
  argvCommand : Option (List String)
  stdoutDest : StreamDest
  stderrDest : StreamDest
  text : String
deriving DecidableEq, Repr

/-- Model of `common.run_shell`'s worker `_exe`: in shell mode the joined command is
run with both streams routed to the host's `sys.stdout` and `res.stdout` is
`None`, so the empty string is returned; otherwise both streams are piped,
and the returned text is the captured `res.stdout` (only) decoded with
`errors="ignore"` and sanitized, with empty captured output mapped to `""`. -/
def run_shell (cmds : List String) (is_shell : Bool) (child : ChildOutput) :
    RunShellResult :=
  if is_shell then
    { shellCommand := some (joinSpace cmds)
      argvCommand := none
      stdoutDest := .hostStdout
      stderrDest := .hostStdout
      text := "" }
  else
    { shellCommand := none
      argvCommand := some cmds
      stdoutDest := .piped
      stderrDest := .piped
      text :=
        if child.stdoutBytes = [] then ""
        else sanitize_output (decodeBytes child.stdoutBytes) }

/-! ## `postgres.ensure_database_exists` -/

/-- Events on the short-lived administrative connection of
`ensure_database_exists`, in order of occurrence.  `connect` records the
keyword arguments handed to `asyncpg.connect` (the config values are
modelled as strings; the Python `timeout` value is the integer `10`). -/
inductive PgEvent where
  | connect (args : Env)
  | query (sql : String)
  | execSql (sql : String)
  | close
deriving DecidableEq, Repr

/-- The connect arguments of `ensure_database_exists`: a copy of the
supplied config with only `timeout` set to 10 — every other key, a
`database` key included, is forwarded unchanged. -/
def ensureConnectArgs (config : Env) : Env :=
  config.set "timeout" "10"

/-- The identifier-escaped name used in the `CREATE DATABASE` statement:
embedded double quotes doubled, the whole wrapped in double quotes. -/
def escapedDbName (name : String) : String :=
  "\"" ++ strReplace name "\"" "\"\"" ++ "\""

/-- Model of `postgres.ensure_database_exists`: connect with a 10-second timeout,
list the server's database names, create the derived database when absent
(returning `true`), and close the connection on both paths (`finally`).
The server is modelled by its list of database names; `CREATE DATABASE`
appends the created name. -/
def ensure_database_exists (cid : CogId) (config : Env) (server : List String) :
    Bool × List String × List PgEvent :=
  let args := ensureConnectArgs config
  let name := db_name cid
  if server.contains name then
    (false, server, [.connect args, .query "SELECT datname FROM pg_database;", .close])
  else
    let stmt := "CREATE DATABASE " ++ escapedDbName name ++ ";"
    (true, server ++ [name],
      [.connect args, .query "SELECT datname FROM pg_database;", .execSql stmt, .close])

/-! ## `postgres.register_cog` -/

/-- The error classes `postgres.register_cog` can raise during its gate
checks and acquisition (from `redbot_orm.errors`). -/
inductive OrmError where
  | uncPath (msg : String)
  | directory (msg : String)
  | connectionTimeout (msg : String)
deriving DecidableEq, Repr

/-- Database/subprocess effects of the registration flow, in order. -/
inductive PGEffect where
  | ensureDb (dbname : String)
  | runMigr (dbname : String)
  | diagnose
  | acquireEngine (dbname : String)
  | startPool (minSize maxSize : Nat)
  | bindTables (n : Nat)
deriving DecidableEq, Repr

/-- Ambient facts `postgres.register_cog` consults beyond the identity:
whether `PICCOLO_CONF` is in `os.environ`, whether the root is an existing
directory, whether `db/piccolo_app.py` or a root-level `piccolo_app.py`
exists, the server's databases, the text produced by the forward-migration
subprocess, and whether engine construction exceeds its 10-second bound. -/
structure RegWorld where
  piccoloConfInEnv : Bool
  rootIsDir : Bool
  dbAppExists : Bool
  rootAppExists : Bool
  server : List String
  migrationResult : String
  acquireTimesOut : Bool
deriving DecidableEq, Repr

/-- Model of `postgres.register_cog` (lines 49-98): the gate checks in source order,
then the ensure/migrate/acquire/pool/bind sequence.  The returned effect
list records every database or subprocess action that occurred before the
function returned or raised; a gate failure therefore returns an empty
list. -/
def pg_register_cog (cid : CogId) (numTables : Nat) (skipMigrations : Bool)
    (minSize maxSize : Nat) (w : RegWorld) : List PGEffect × Except OrmError Unit :=
  let cogPath := get_root cid
  if is_unc_path cogPath then
    ([], .error (.uncPath
      ("UNC paths are not supported, please move the cog's location: " ++ cogPath.str)))
  else if !w.rootIsDir then
    ([], .error (.directory ("Cog files are not in a valid directory: " ++ cogPath.str)))
  else if !w.piccoloConfInEnv && !(w.dbAppExists || w.rootAppExists) then
    ([], .error (.directory
      ("Missing piccolo_app.py in " ++ cogPath.str ++ " - run `redbot-orm scaffold` first")))
  else
    let name := db_name cid
    let migrEffects :=
      if skipMigrations then []
      else if strContains w.migrationResult "No migrations need to be run" then
        [PGEffect.runMigr name]
      else if w.migrationResult ≠ "" ∧ strContains w.migrationResult "Traceback" then
        [PGEffect.runMigr name, PGEffect.diagnose]
      else
        [PGEffect.runMigr name]
    let effects := PGEffect.ensureDb name :: migrEffects
    if w.acquireTimesOut then
      (effects ++ [PGEffect.acquireEngine name],
       .error (.connectionTimeout "Database connection timed out"))
    else
      (effects ++ [PGEffect.acquireEngine name, PGEffect.startPool minSize maxSize,
                   PGEffect.bindTables numTables],
       .ok ())

/-! ## `registry.py` — the dialect router

Each top-level entry point normalizes an explicitly empty config to `None`
and then routes to the server-backed (`postgres`) or file-backed (`sqlite`)
implementation.  The route values record the arguments handed to the chosen
implementation. -/

/-- Model of `if config is not None and len(config) == 0: config = None`. -/
def normalizeConfig (config : Option Env) : Option Env :=
  match config with
  | some c => if c.length = 0 then none else some c
  | none => none

/-- Route taken by `registry.register_cog`. -/
inductive RegisterRoute where
  | pg (config : Env) (trace : Bool) (maxSize minSize : Nat)
      (skipMigrations : Bool) (exts : List String)
  | sqlite (trace : Bool) (skipMigrations : Bool)
deriving DecidableEq, Repr

/-- Model of `registry.register_cog`: normalize the config, raise `ValueError` when
pool or extension parameters are non-default with no config, then route. -/
def registry_register_cog (config : Option Env) (trace skipMigrations : Bool)
    (maxSize minSize : Nat) (exts : List String) :
    Except String RegisterRoute :=
  let config := normalizeConfig config
  if config = none ∧ (maxSize ≠ 20 ∨ minSize ≠ 1 ∨ exts ≠ ["uuid-ossp"]) then
    .error "Postgres options can only be used when a config is provided."
  else
    match config with
    | some c => .ok (.pg c trace maxSize minSize skipMigrations exts)
    | none => .ok (.sqlite trace skipMigrations)

/-- Route taken by `registry.run_migrations`. -/
inductive MigrRoute where
  | pg (config : Env) (trace : Bool)
  | sqlite (trace : Bool)
deriving DecidableEq, Repr

/-- Model of `registry.run_migrations`. -/
def registry_run_migrations (config : Option Env) (trace : Bool) : MigrRoute :=
  match normalizeConfig config with
  | some c => .pg c trace
  | none => .sqlite trace

/-- Route taken by `registry.reverse_migration`. -/
inductive ReverseRoute where
  | pg (config : Env) (timestamp : String) (trace : Bool)
  | sqlite (timestamp : String) (trace : Bool)
deriving DecidableEq, Repr

/-- Model of `registry.reverse_migration`. -/
def registry_reverse_migration (config : Option Env) (timestamp : String)
    (trace : Bool) : ReverseRoute :=
  match normalizeConfig config with
  | some c => .pg c timestamp trace
  | none => .sqlite timestamp trace

/-- Route taken by `registry.create_migrations`. -/
inductive CreateRoute where
  | pg (config : Env) (trace : Bool) (description : Option String) (isShell : Bool)
  | sqlite (trace : Bool) (description : Option String) (isShell : Bool)
deriving DecidableEq, Repr

/-- Model of `registry.create_migrations`. -/
def registry_create_migrations (config : Option Env) (trace : Bool)
    (description : Option String) (isShell : Bool) : CreateRoute :=
  match normalizeConfig config with
  | some c => .pg c trace description isShell
  | none => .sqlite trace description isShell

/-- Route taken by `registry.diagnose_issues`. -/
inductive DiagnoseRoute where
  | pg (config : Env)
  | sqlite
deriving DecidableEq, Repr

/-- Model of `registry.diagnose_issues`. -/
def registry_diagnose_issues (config : Option Env) : DiagnoseRoute :=
  match normalizeConfig config with
  | some c => .pg c
  | none => .sqlite

/-! ## `scaffold.create_scaffold`

The filesystem is modelled as a map from path strings to file contents.
Directory creation (`mkdir(parents=True, exist_ok=True)`) touches no file
entry and is omitted.  The template texts do not matter to any claim, so
each file's content is an opaque marker string. -/

/-- A filesystem: existing files and their contents, with the same
association-list semantics as `Env`. -/
abbrev FS := Env

/-- The `_FILES` table of `scaffold.py`, in dict (insertion) order: relative
path paired with the (abbreviated) template content. -/
def scaffoldFiles : List (String × String) :=
  [("db/tables.py", "<tables template>"),
   ("db/piccolo_conf.py", "<piccolo_conf template>"),
   ("db/piccolo_app.py", "<piccolo_app template>"),
   ("db/__init__.py", "<db package marker>"),
   ("build.py", "<build template>")]

/-- The `for relative_path, content in _FILES.items()` loop of
`create_scaffold`: skip existing files unless `overwrite`, otherwise write
the file and record its path; returns the updated filesystem and the
recorded paths in iteration order. -/
def scaffoldLoop (base : String) (overwrite : Bool) (fs : FS) :
    List (String × String) → FS × List String
  | [] => (fs, [])
  | (rel, content) :: rest =>
      let p := base ++ "/" ++ rel
      if (fs.get? p).isSome && !overwrite then
        scaffoldLoop base overwrite fs rest
      else
        let out := scaffoldLoop base overwrite (fs.set p content) rest
        (out.1, p :: out.2)

/-- Model of `scaffold.create_scaffold` on the file map (the two `mkdir` calls have
no file-level effect): returns the new filesystem and the list of paths of
files newly written. -/
def create_scaffold (base : String) (fs : FS) (overwrite : Bool) :
    FS × List String :=
  scaffoldLoop base overwrite fs scaffoldFiles

/-! ## `cli.py` -/

/-- Parsed `scaffold` arguments: optional positional target (default `"."`)
and the `--overwrite` flag. -/
structure ScaffoldArgs where
  target : String
  overwrite : Bool
deriving DecidableEq, Repr

/-- The fixed `argparse` parser of `cli._build_parser`, with
`add_subparsers(dest="command", required=True)` and one `scaffold`
subcommand: a missing or unknown subcommand (or surplus arguments) makes
`parse_args` abort the process via `SystemExit(2)` (`ArgumentParser.error`),
modelled as `Except.error 2`; it never returns control to `main` in that
case. -/
def parse_args : List String → Except Nat ScaffoldArgs
  | [] => .error 2
  | cmd :: rest =>
      if cmd = "scaffold" then
        match rest with
        | [] => .ok ⟨".", false⟩
        | [a] => if a = "--overwrite" then .ok ⟨".", true⟩ else .ok ⟨a, false⟩
        | [a, b] =>
            if a = "--overwrite" && b ≠ "--overwrite" then .ok ⟨b, true⟩
            else if b = "--overwrite" && a ≠ "--overwrite" then .ok ⟨a, true⟩
            else .error 2
        | _ => .error 2
      else .error 2

/-- How a `cli.main` invocation terminates: a `SystemExit` raised by the
parser, or a return value from `main` itself. -/
inductive CliOutcome where
  | exited (code : Nat)
  | returned (code : Nat)
deriving DecidableEq, Repr

/-- Model of `cli.main`: parse, run `create_scaffold` on the target, print, and
return 0; with no (or an unknown) subcommand the parser exits the process
with status 2 first, so the trailing `return 1` fallback is unreachable. -/
def cli_main (argv : List String) (fs : FS) : CliOutcome × FS :=
  match parse_args argv with
  | .error c => (.exited c, fs)
  | .ok args =>
      let out := create_scaffold args.target fs args.overwrite
      (.returned 0, out.1)

/-! ## General lemmas -/

theorem Env.get_set_self (e : Env) (k v : String) : (e.set k v).get? k = some v := by
  induction e with
  | nil => simp [Env.set, Env.get?]
  | cons hd tl ih =>
      obtain ⟨k', v'⟩ := hd
      by_cases h : k' = k
      · simp [Env.set, h, Env.get?]
      · simp [Env.set, h, Env.get?, ih]

theorem Env.get_set_other (e : Env) (k k' v : String) (h : k' ≠ k) :
    (e.set k v).get? k' = e.get? k' := by
  have h' : ¬ k = k' := fun hh => h hh.symm
  induction e with
  | nil => simp [Env.set, Env.get?, h']
  | cons hd tl ih =>
      obtain ⟨k₀, v₀⟩ := hd
      by_cases h0 : k₀ = k
      · subst h0
        simp [Env.set, Env.get?, h']
      · by_cases h1 : k₀ = k'
        · simp [Env.set, h0, Env.get?, h1, h]
        · simp [Env.set, h0, Env.get?, h1, ih]

theorem str_append_cancel (a x y : String) (h : a ++ x = a ++ y) : x = y := by
  have hd : (a ++ x).data = (a ++ y).data := congrArg String.data h
  simp only [String.data_append] at hd
  have h2 := List.append_cancel_left hd
  cases x; cases y
  exact congrArg String.mk h2

/-- Lookups under a key `get_env_base` never assigns pass through to the
ambient environment. -/
theorem get_env_base_frame (cid : CogId) (w : EnvWorld) (k : String)
    (h1 : k ≠ "PICCOLO_CONF") (h2 : k ≠ "APP_NAME") (h3 : k ≠ "PYTHONPATH")
    (h4 : k ≠ "DB_PATH") (h5 : k ≠ "PYTHONIOENCODING") :
    (get_env_base cid w).get? k = w.ambient.get? k := by
  have gso : ∀ (e : Env) (a v : String), k ≠ a → (e.set a v).get? k = e.get? k :=
    fun e a v ha => Env.get_set_other e a k v ha
  unfold get_env_base
  by_cases hp : (Env.get? w.ambient "PICCOLO_CONF").isSome <;>
    by_cases hl : w.libExists <;>
      by_cases hw : w.isWindows <;>
        simp only [hp, hl, hw, if_true, if_false, Bool.false_eq_true,
          Bool.true_eq_false, ite_true, ite_false] <;>
        repeat
          (first
            | rw [gso _ "PYTHONIOENCODING" _ h5]
            | rw [gso _ "DB_PATH" _ h4]
            | rw [gso _ "PYTHONPATH" _ h3]
            | rw [gso _ "APP_NAME" _ h2]
            | rw [gso _ "PICCOLO_CONF" _ h1])

/-- Lookups under a key outside the five credential keys pass from `get_env`
with a supplied config through to the base environment. -/
theorem get_env_some_frame (cid : CogId) (w : EnvWorld) (cfg : Env) (k : String)
    (h1 : k ≠ "POSTGRES_USER") (h2 : k ≠ "POSTGRES_PASSWORD")
    (h3 : k ≠ "POSTGRES_DATABASE") (h4 : k ≠ "POSTGRES_HOST")
    (h5 : k ≠ "POSTGRES_PORT") :
    (get_env cid w (some cfg)).get? k = (get_env_base cid w).get? k := by
  unfold get_env
  rw [Env.get_set_other _ _ _ _ h5, Env.get_set_other _ _ _ _ h4,
    Env.get_set_other _ _ _ _ h3, Env.get_set_other _ _ _ _ h2,
    Env.get_set_other _ _ _ _ h1]

/-- Model of `get_env_base` preserves a pre-existing `PICCOLO_CONF` value and
defaults it only when absent. -/
theorem get_env_base_piccolo_conf (cid : CogId) (w : EnvWorld) :
    ((w.ambient.get? "PICCOLO_CONF").isSome →
       (get_env_base cid w).get? "PICCOLO_CONF" = w.ambient.get? "PICCOLO_CONF") ∧
    (w.ambient.get? "PICCOLO_CONF" = none →
       (get_env_base cid w).get? "PICCOLO_CONF" = some "db.piccolo_conf") := by
  have gso : ∀ (e : Env) (a v : String), ("PICCOLO_CONF" : String) ≠ a →
      (e.set a v).get? "PICCOLO_CONF" = e.get? "PICCOLO_CONF" :=
    fun e a v ha => Env.get_set_other e a "PICCOLO_CONF" v ha
  constructor
  · intro hp
    unfold get_env_base
    by_cases hl : w.libExists <;>
      by_cases hw : w.isWindows <;>
        simp only [hp, hl, hw, if_true, if_false, Bool.false_eq_true,
          Bool.true_eq_false, ite_true, ite_false] <;>
        repeat
          (first
            | rw [gso _ "PYTHONIOENCODING" _ (by decide)]
            | rw [gso _ "DB_PATH" _ (by decide)]
            | rw [gso _ "PYTHONPATH" _ (by decide)]
            | rw [gso _ "APP_NAME" _ (by decide)])
  · intro hp
    have hp' : ¬ (Env.get? w.ambient "PICCOLO_CONF").isSome = true := by
      simp [hp]
    unfold get_env_base
    by_cases hl : w.libExists <;>
      by_cases hw : w.isWindows <;>
        simp only [hp', hl, hw, if_true, if_false, Bool.false_eq_true,
          Bool.true_eq_false, ite_true, ite_false] <;>
        (repeat
          (first
            | rw [gso _ "PYTHONIOENCODING" _ (by decide)]
            | rw [gso _ "DB_PATH" _ (by decide)]
            | rw [gso _ "PYTHONPATH" _ (by decide)]
            | rw [gso _ "APP_NAME" _ (by decide)])) <;>
        exact Env.get_set_self _ _ _

/-! ## Claims -/

/-- C1: for a cog identity whose root is a UNC path, the server-backed
`register_cog` fails with `UNCPathError` with no database or subprocess
effect; for a root that is not an existing directory it fails with
`DirectoryError` likewise; and when `PICCOLO_CONF` is not externally set
and neither scaffold marker file exists, it fails with `DirectoryError`
likewise — all before database creation is attempted (empty effect list). -/
theorem C1_register_gate_errors (cid : CogId) (n : Nat) (skip : Bool)
    (mi ma : Nat) (w : RegWorld) :
    (is_unc_path (get_root cid) = true →
      ∃ msg, pg_register_cog cid n skip mi ma w = ([], .error (.uncPath msg))) ∧
    (is_unc_path (get_root cid) = false → w.rootIsDir = false →
      ∃ msg, pg_register_cog cid n skip mi ma w = ([], .error (.directory msg))) ∧
    (is_unc_path (get_root cid) = false → w.rootIsDir = true →
      w.piccoloConfInEnv = false → w.dbAppExists = false → w.rootAppExists = false →
      ∃ msg, pg_register_cog cid n skip mi ma w = ([], .error (.directory msg))) := by
  refine ⟨?_, ?_, ?_⟩
  · intro h
    refine ⟨"UNC paths are not supported, please move the cog's location: " ++
      (get_root cid).str, ?_⟩
    simp [pg_register_cog, h]
  · intro h1 h2
    refine ⟨"Cog files are not in a valid directory: " ++ (get_root cid).str, ?_⟩
    simp [pg_register_cog, h1, h2]
  · intro h1 h2 h3 h4 h5
    refine ⟨"Missing piccolo_app.py in " ++ (get_root cid).str ++
      " - run `redbot-orm scaffold` first", ?_⟩
    simp [pg_register_cog, h1, h2, h3, h4, h5]

/-- Witness for C1 at concrete worlds: a UNC root, a missing root directory,
and a present directory lacking both scaffold markers with `PICCOLO_CONF`
unset. -/
theorem C1_register_gate_errors_witness :
    (∃ msg, pg_register_cog (.path ⟨"\\\\server\\share", "share", true⟩) 2 false 1 20
        ⟨false, true, true, true, [], "", false⟩ = ([], .error (.uncPath msg))) ∧
    (∃ msg, pg_register_cog (.path ⟨"/cogs/gone", "gone", false⟩) 2 false 1 20
        ⟨false, false, false, false, [], "", false⟩ = ([], .error (.directory msg))) ∧
    (∃ msg, pg_register_cog (.path ⟨"/cogs/mycog", "mycog", false⟩) 2 false 1 20
        ⟨false, true, false, false, [], "", false⟩ = ([], .error (.directory msg))) :=
  ⟨(C1_register_gate_errors _ 2 false 1 20 _).1 (by decide),
   (C1_register_gate_errors _ 2 false 1 20 _).2.1 (by decide) rfl,
   (C1_register_gate_errors _ 2 false 1 20 _).2.2 (by decide) rfl rfl rfl rfl⟩

/-- C2: every top-level router entry point treats an explicitly empty config
exactly like an absent one and routes it to the file-backed (sqlite)
dialect; and `register_cog` with an absent or empty config and a non-default
`max_size`, `min_size` or `extensions` value raises `ValueError` rather than
ignoring the parameters. -/
theorem C2_router_empty_config (trace skip : Bool) (ts : String)
    (desc : Option String) (isShell : Bool) (maxSize minSize : Nat)
    (exts : List String) :
    (registry_register_cog (some []) trace skip maxSize minSize exts =
       registry_register_cog none trace skip maxSize minSize exts) ∧
    (registry_register_cog (some []) trace skip 20 1 ["uuid-ossp"] =
       .ok (.sqlite trace skip)) ∧
    (registry_run_migrations (some []) trace = registry_run_migrations none trace) ∧
    (registry_run_migrations (some []) trace = .sqlite trace) ∧
    (registry_reverse_migration (some []) ts trace =
       registry_reverse_migration none ts trace) ∧
    (registry_reverse_migration (some []) ts trace = .sqlite ts trace) ∧
    (registry_create_migrations (some []) trace desc isShell =
       registry_create_migrations none trace desc isShell) ∧
    (registry_create_migrations (some []) trace desc isShell =
       .sqlite trace desc isShell) ∧
    (registry_diagnose_issues (some []) = registry_diagnose_issues none) ∧
    (registry_diagnose_issues (some []) = .sqlite) ∧
    (¬(maxSize = 20 ∧ minSize = 1 ∧ exts = ["uuid-ossp"]) →
       registry_register_cog (some []) trace skip maxSize minSize exts =
         .error "Postgres options can only be used when a config is provided." ∧
       registry_register_cog none trace skip maxSize minSize exts =
         .error "Postgres options can only be used when a config is provided.") := by
  refine ⟨rfl, by simp [registry_register_cog, normalizeConfig], rfl, rfl, rfl, rfl,
    rfl, rfl, rfl, rfl, ?_⟩
  intro h
  have hcond : (normalizeConfig (some []) = none ∧
      (maxSize ≠ 20 ∨ minSize ≠ 1 ∨ exts ≠ ["uuid-ossp"])) := by
    refine ⟨rfl, ?_⟩
    by_contra hc
    push_neg at hc
    exact h ⟨hc.1, hc.2.1, hc.2.2⟩
  constructor
  · simp only [registry_register_cog, normalizeConfig]
    rw [if_pos]
    exact ⟨by trivial, hcond.2⟩
  · simp only [registry_register_cog, normalizeConfig]
    rw [if_pos]
    exact ⟨by trivial, hcond.2⟩

/-- Witness for C2 at a concrete non-default pool size. -/
theorem C2_router_empty_config_witness :
    registry_register_cog (some []) false false 5 1 ["uuid-ossp"] =
      .error "Postgres options can only be used when a config is provided." ∧
    registry_register_cog none false false 5 1 ["uuid-ossp"] =
      .error "Postgres options can only be used when a config is provided." :=
  (C2_router_empty_config false false "" none false 5 1 ["uuid-ossp"]).2.2.2.2.2.2.2.2.2.2
    (by decide)

/-- C3: for a fresh derived database name, `ensure_database_exists` returns
`true` on the call that finds the name absent (issuing the identifier-escaped
`CREATE DATABASE` statement), after which the name is on the server; any call
that finds the name present — every subsequent call included — returns
`false`, changes nothing and issues no creation statement. -/
theorem C3_ensure_database_once (cid : CogId) (config : Env) (server : List String)
    (h : server.contains (db_name cid) = false) :
    (ensure_database_exists cid config server).1 = true ∧
    (ensure_database_exists cid config server).2.2 =
      [.connect (ensureConnectArgs config), .query "SELECT datname FROM pg_database;",
       .execSql ("CREATE DATABASE " ++ escapedDbName (db_name cid) ++ ";"), .close] ∧
    ((ensure_database_exists cid config server).2.1).contains (db_name cid) = true ∧
    (∀ s : List String, s.contains (db_name cid) = true →
       ensure_database_exists cid config s =
         (false, s, [.connect (ensureConnectArgs config),
                     .query "SELECT datname FROM pg_database;", .close])) := by
  have h' : db_name cid ∉ server := by simpa using h
  refine ⟨by simp [ensure_database_exists, h'], by simp [ensure_database_exists, h'],
    ?_, ?_⟩
  · simp [ensure_database_exists, h']
  · intro s hs
    have hs' : db_name cid ∈ s := by simpa using hs
    simp [ensure_database_exists, hs']

/-- Witness for C3: a fresh server and a stem containing a double quote, so
the escaped creation statement is exercised; the second call runs on the
state the first call produced. -/
theorem C3_ensure_database_once_witness :
    (ensure_database_exists (.path ⟨"/cogs/My\"Cog", "My\"Cog", false⟩)
        [("user", "u")] ["postgres"]).1 = true ∧
    (ensure_database_exists (.path ⟨"/cogs/My\"Cog", "My\"Cog", false⟩)
        [("user", "u")] ["postgres"]).2.2 =
      [.connect (ensureConnectArgs [("user", "u")]),
       .query "SELECT datname FROM pg_database;",
       .execSql ("CREATE DATABASE " ++
         escapedDbName (db_name (.path ⟨"/cogs/My\"Cog", "My\"Cog", false⟩)) ++ ";"),
       .close] ∧
    ((ensure_database_exists (.path ⟨"/cogs/My\"Cog", "My\"Cog", false⟩)
        [("user", "u")] ["postgres"]).2.1).contains
      (db_name (.path ⟨"/cogs/My\"Cog", "My\"Cog", false⟩)) = true ∧
    (∀ s : List String,
       s.contains (db_name (.path ⟨"/cogs/My\"Cog", "My\"Cog", false⟩)) = true →
       ensure_database_exists (.path ⟨"/cogs/My\"Cog", "My\"Cog", false⟩)
           [("user", "u")] s =
         (false, s, [.connect (ensureConnectArgs [("user", "u")]),
                     .query "SELECT datname FROM pg_database;", .close])) :=
  C3_ensure_database_once (.path ⟨"/cogs/My\"Cog", "My\"Cog", false⟩)
    [("user", "u")] ["postgres"] (by decide)

/-- C4 counterexample: the administrative connection of
`ensure_database_exists` does not ignore a database name in the supplied
config — `asyncpg.connect` receives the config verbatim apart from the
added timeout, so a `database` entry (here the target name itself) is
forwarded in the connect arguments. -/
theorem C4_counterexample :
    (ensureConnectArgs [("database", "mycog"), ("user", "u")]).get? "database" =
      some "mycog" ∧
    (ensure_database_exists (.path ⟨"/cogs/MyCog", "MyCog", false⟩)
        [("database", "mycog"), ("user", "u")] []).2.2.head? =
      some (.connect [("database", "mycog"), ("user", "u"), ("timeout", "10")]) := by
  decide

/-- C4 (amended): `ensure_database_exists` opens its administrative
connection with the supplied config plus a 10-second timeout — forwarding
every other entry, a `database` name included, unchanged — and closes the
administrative connection as the last action on every path, the creation
path included. -/
theorem C4_admin_connection (cid : CogId) (config : Env) (server : List String) :
    (ensureConnectArgs config).get? "timeout" = some "10" ∧
    (∀ k v, k ≠ "timeout" → config.get? k = some v →
       (ensureConnectArgs config).get? k = some v) ∧
    (ensure_database_exists cid config server).2.2.head? =
      some (.connect (ensureConnectArgs config)) ∧
    (ensure_database_exists cid config server).2.2.getLast? = some .close := by
  refine ⟨Env.get_set_self _ _ _, ?_, ?_, ?_⟩
  · intro k v hk hkv
    rw [ensureConnectArgs, Env.get_set_other _ _ _ _ hk]
    exact hkv
  · by_cases hs : db_name cid ∈ server <;> simp [ensure_database_exists, hs]
  · by_cases hs : db_name cid ∈ server <;> simp [ensure_database_exists, hs]

/-- Witness for C4 (amended) at a concrete config carrying a database name. -/
theorem C4_admin_connection_witness :
    (ensureConnectArgs [("database", "postgres")]).get? "database" = some "postgres" ∧
    (ensure_database_exists (.path ⟨"/cogs/MyCog", "MyCog", false⟩)
        [("database", "postgres")] []).2.2.getLast? = some .close :=
  ⟨(C4_admin_connection (.path ⟨"/cogs/MyCog", "MyCog", false⟩)
      [("database", "postgres")] []).2.1 "database" "postgres" (by decide) (by decide),
   (C4_admin_connection (.path ⟨"/cogs/MyCog", "MyCog", false⟩)
      [("database", "postgres")] []).2.2.2⟩

/-- C5 counterexample: with piped output, `run_shell` returns only the
decoded standard output — captured standard error (here decoding to `"err"`)
is absent from the returned text — and an undecodable byte (255) is dropped
by `errors="ignore"`, not replaced. -/
theorem C5_counterexample :
    (run_shell ["piccolo", "--diagnose"] false
       ⟨[111, 117, 116], [101, 114, 114]⟩).text = "out" ∧
    decodeBytes [101, 114, 114] = "err" ∧
    ("out" : String) ≠ "out" ++ "err" ∧
    strContains (run_shell ["piccolo", "--diagnose"] false
       ⟨[111, 117, 116], [101, 114, 114]⟩).text "err" = false ∧
    decodeBytes [111, 255, 117, 116] = "out" := by
  decide

/-- C5 (amended): in shell mode both streams go to the host's standard
output and the returned text is empty; otherwise both streams are piped,
the returned text depends only on the captured standard output (standard
error is discarded), and a non-empty captured standard output is returned
decoded with undecodable bytes dropped and emoji sanitized. -/
theorem C5_run_shell (cmds : List String) (child child' : ChildOutput)
    (hout : child.stdoutBytes = child'.stdoutBytes) :
    ((run_shell cmds true child).text = "" ∧
     (run_shell cmds true child).stdoutDest = .hostStdout ∧
     (run_shell cmds true child).stderrDest = .hostStdout) ∧
    ((run_shell cmds false child).stdoutDest = .piped ∧
     (run_shell cmds false child).stderrDest = .piped ∧
     (run_shell cmds false child).text = (run_shell cmds false child').text) ∧
    (child.stdoutBytes ≠ [] →
       (run_shell cmds false child).text =
         sanitize_output (decodeBytes child.stdoutBytes)) := by
  refine ⟨by simp [run_shell], ⟨by simp [run_shell], by simp [run_shell], ?_⟩, ?_⟩
  · simp [run_shell, hout]
  · intro h
    simp [run_shell, h]

/-- Witness for C5 (amended): same stdout, different stderr. -/
theorem C5_run_shell_witness :
    (run_shell ["piccolo"] false ⟨[111, 117, 116], [101, 114, 114]⟩).text =
      (run_shell ["piccolo"] false ⟨[111, 117, 116], []⟩).text ∧
    (run_shell ["piccolo"] false ⟨[111, 117, 116], [101, 114, 114]⟩).text =
      sanitize_output (decodeBytes [111, 117, 116]) :=
  ⟨(C5_run_shell ["piccolo"] ⟨[111, 117, 116], [101, 114, 114]⟩
      ⟨[111, 117, 116], []⟩ rfl).2.1.2.2,
   (C5_run_shell ["piccolo"] ⟨[111, 117, 116], [101, 114, 114]⟩
      ⟨[111, 117, 116], []⟩ rfl).2.2 (by decide)⟩

/-- C6 counterexample: `get_env` checks `postgres_config is not None`, so an
explicitly empty — hence not "non-empty" — config still sets all five
credential variables (to their fallback values), refuting the claimed "if
and only if a non-empty connection config is supplied". -/
theorem C6_counterexample :
    (get_env (.path ⟨"/cogs/mycog", "mycog", false⟩)
        ⟨[], false, "", ";", false⟩ (some [])).get? "POSTGRES_USER" =
      some "postgres" ∧
    (get_env (.path ⟨"/cogs/mycog", "mycog", false⟩)
        ⟨[], false, "", ";", false⟩ (some [])).get? "POSTGRES_PASSWORD" =
      some "postgres" ∧
    (get_env (.path ⟨"/cogs/mycog", "mycog", false⟩)
        ⟨[], false, "", ";", false⟩ (some [])).get? "POSTGRES_DATABASE" =
      some "postgres" ∧
    (get_env (.path ⟨"/cogs/mycog", "mycog", false⟩)
        ⟨[], false, "", ";", false⟩ (some [])).get? "POSTGRES_HOST" =
      some "localhost" ∧
    (get_env (.path ⟨"/cogs/mycog", "mycog", false⟩)
        ⟨[], false, "", ";", false⟩ (some [])).get? "POSTGRES_PORT" =
      some "5432" ∧
    ([] : Env).length = 0 := by
  decide

/-- C6 (amended): `get_env` sets the five `POSTGRES_*` credential variables
if and only if a config was supplied at all (`is not None`, an explicitly
empty config included), each defaulting to its fixed fallback
(`postgres`/`postgres`/`postgres`/`localhost`/`5432`) when the field is
absent; with no config, each of the five lookups passes through to the
ambient environment unchanged. -/
theorem C6_get_env_postgres_vars (cid : CogId) (w : EnvWorld) (cfg : Env) :
    ((get_env cid w (some cfg)).get? "POSTGRES_USER" =
        some (cfg.getD "user" "postgres") ∧
     (get_env cid w (some cfg)).get? "POSTGRES_PASSWORD" =
        some (cfg.getD "password" "postgres") ∧
     (get_env cid w (some cfg)).get? "POSTGRES_DATABASE" =
        some (cfg.getD "database" "postgres") ∧
     (get_env cid w (some cfg)).get? "POSTGRES_HOST" =
        some (cfg.getD "host" "localhost") ∧
     (get_env cid w (some cfg)).get? "POSTGRES_PORT" =
        some (cfg.getD "port" "5432")) ∧
    ((get_env cid w none).get? "POSTGRES_USER" =
        w.ambient.get? "POSTGRES_USER" ∧
     (get_env cid w none).get? "POSTGRES_PASSWORD" =
        w.ambient.get? "POSTGRES_PASSWORD" ∧
     (get_env cid w none).get? "POSTGRES_DATABASE" =
        w.ambient.get? "POSTGRES_DATABASE" ∧
     (get_env cid w none).get? "POSTGRES_HOST" =
        w.ambient.get? "POSTGRES_HOST" ∧
     (get_env cid w none).get? "POSTGRES_PORT" =
        w.ambient.get? "POSTGRES_PORT") := by
  constructor
  · refine ⟨?_, ?_, ?_, ?_, ?_⟩ <;>
      (unfold get_env) <;>
      (repeat rw [Env.get_set_other _ _ _ _ (by decide)]) <;>
      exact Env.get_set_self _ _ _
  · refine ⟨?_, ?_, ?_, ?_, ?_⟩ <;>
      exact get_env_base_frame cid w _ (by decide) (by decide) (by decide)
        (by decide) (by decide)

/-- C7: `get_env` never overwrites a pre-existing `PICCOLO_CONF` value
(the presence check precedes the assignment), defaults it only when absent,
and builds a fresh mapping from a copy of the ambient environment: every
key it does not assign reads back unchanged. -/
theorem C7_piccolo_conf_preserved (cid : CogId) (w : EnvWorld)
    (cfg : Option Env) (v : String) :
    (w.ambient.get? "PICCOLO_CONF" = some v →
       (get_env cid w cfg).get? "PICCOLO_CONF" = some v) ∧
    (w.ambient.get? "PICCOLO_CONF" = none →
       (get_env cid w cfg).get? "PICCOLO_CONF" = some "db.piccolo_conf") ∧
    (∀ k, k ∉ getEnvBaseKeys → k ∉ postgresKeys →
       (get_env cid w cfg).get? k = w.ambient.get? k) := by
  have hred : ∀ k, k ≠ "POSTGRES_USER" → k ≠ "POSTGRES_PASSWORD" →
      k ≠ "POSTGRES_DATABASE" → k ≠ "POSTGRES_HOST" → k ≠ "POSTGRES_PORT" →
      (get_env cid w cfg).get? k = (get_env_base cid w).get? k := by
    intro k h1 h2 h3 h4 h5
    cases cfg with
    | none => rfl
    | some c => exact get_env_some_frame cid w c k h1 h2 h3 h4 h5
  refine ⟨?_, ?_, ?_⟩
  · intro hv
    rw [hred "PICCOLO_CONF" (by decide) (by decide) (by decide) (by decide)
      (by decide)]
    rw [(get_env_base_piccolo_conf cid w).1 (by simp [hv])]
    exact hv
  · intro hv
    rw [hred "PICCOLO_CONF" (by decide) (by decide) (by decide) (by decide)
      (by decide)]
    exact (get_env_base_piccolo_conf cid w).2 hv
  · intro k hbase hpg
    simp only [getEnvBaseKeys, List.mem_cons, List.mem_singleton,
      List.not_mem_nil, or_false, not_or] at hbase
    simp only [postgresKeys, List.mem_cons, List.mem_singleton,
      List.not_mem_nil, or_false, not_or] at hpg
    rw [hred k hpg.1 hpg.2.1 hpg.2.2.1 hpg.2.2.2.1 hpg.2.2.2.2]
    exact get_env_base_frame cid w k hbase.1 hbase.2.1 hbase.2.2.1
      hbase.2.2.2.1 hbase.2.2.2.2

/-- Witness for C7: a preset `PICCOLO_CONF` survives, an absent one is
defaulted, and an unrelated ambient variable passes through. -/
theorem C7_piccolo_conf_preserved_witness :
    (get_env (.path ⟨"/cogs/mycog", "mycog", false⟩)
        ⟨[("PICCOLO_CONF", "custom.conf")], false, "", ";", false⟩
        (some [("user", "u")])).get? "PICCOLO_CONF" = some "custom.conf" ∧
    (get_env (.path ⟨"/cogs/mycog", "mycog", false⟩)
        ⟨[], false, "", ";", false⟩ none).get? "PICCOLO_CONF" =
      some "db.piccolo_conf" ∧
    (get_env (.path ⟨"/cogs/mycog", "mycog", false⟩)
        ⟨[("HOME", "/home/red")], false, "", ";", false⟩ none).get? "HOME" =
      some "/home/red" :=
  ⟨(C7_piccolo_conf_preserved (.path ⟨"/cogs/mycog", "mycog", false⟩)
      ⟨[("PICCOLO_CONF", "custom.conf")], false, "", ";", false⟩
      (some [("user", "u")]) "custom.conf").1 rfl,
   (C7_piccolo_conf_preserved (.path ⟨"/cogs/mycog", "mycog", false⟩)
      ⟨[], false, "", ";", false⟩ none "").2.1 rfl,
   ((C7_piccolo_conf_preserved (.path ⟨"/cogs/mycog", "mycog", false⟩)
      ⟨[("HOME", "/home/red")], false, "", ";", false⟩ none "").2.2 "HOME"
      (by decide) (by decide)).trans (by decide)⟩

/-- C8: when no piccolo executable exists at any location of the search
order, `find_piccolo_executable` fails; `get_piccolo_command` then returns
exactly the module-invocation prefix when piccolo is importable, and lets
the `FileNotFoundError` propagate when it is not. -/
theorem C8_piccolo_fallback (w : ToolWorld)
    (h : ∀ p ∈ pathCandidates w ++ libCandidates w ++
           [joinPath w.sysExecDir "piccolo"], w.existing.contains p = false) :
    find_piccolo_executable w = .error "Piccolo package not found!" ∧
    (w.piccoloImportable = true →
       get_piccolo_command w = .ok [w.sysExecutable, "-m", "piccolo.main"]) ∧
    (w.piccoloImportable = false →
       get_piccolo_command w = .error "Piccolo package not found!") := by
  have h1 : (pathCandidates w).find? (fun p => w.existing.contains p) = none := by
    rw [List.find?_eq_none]
    intro a ha
    simpa using h a (by simp [ha])
  have h2 : (libCandidates w).find? (fun p => w.existing.contains p) = none := by
    rw [List.find?_eq_none]
    intro a ha
    simpa using h a (by simp [ha])
  have h3 : joinPath w.sysExecDir "piccolo" ∉ w.existing := by
    simpa using h _ (by simp)
  have hfind : find_piccolo_executable w = .error "Piccolo package not found!" := by
    unfold find_piccolo_executable
    rw [h1, h2]
    simp [h3]
  refine ⟨hfind, ?_, ?_⟩
  · intro hi
    unfold get_piccolo_command
    rw [hfind]
    simp [hi]
  · intro hi
    unfold get_piccolo_command
    rw [hfind]
    simp [hi]

/-- Witness for C8: a world with no executable anywhere, once with the
module importable and once without. -/
theorem C8_piccolo_fallback_witness :
    get_piccolo_command
      ⟨["/usr/bin"], ["/usr/bin/python3"], true, ["/data/lib"],
        "/usr/bin/python3", "/usr/bin", true⟩ =
      .ok ["/usr/bin/python3", "-m", "piccolo.main"] ∧
    get_piccolo_command
      ⟨["/usr/bin"], ["/usr/bin/python3"], false, [],
        "/usr/bin/python3", "/usr/bin", false⟩ =
      .error "Piccolo package not found!" :=
  ⟨(C8_piccolo_fallback
      ⟨["/usr/bin"], ["/usr/bin/python3"], true, ["/data/lib"],
        "/usr/bin/python3", "/usr/bin", true⟩ (by decide)).2.1 rfl,
   (C8_piccolo_fallback
      ⟨["/usr/bin"], ["/usr/bin/python3"], false, [],
        "/usr/bin/python3", "/usr/bin", false⟩ (by decide)).2.2 rfl⟩

/-- C9 counterexample: with no subcommand the required-subparsers argument
parser terminates the process with `SystemExit(2)` before `main`'s
`return 1` fallback can run, so `main` does not return exit code 1. -/
theorem C9_counterexample :
    (cli_main [] []).1 = .exited 2 ∧ (cli_main [] []).1 ≠ .returned 1 := by
  decide

/-- C9 (amended): `cli.main` returns exit code 0 whenever the scaffold
subcommand parses (both on creation and on the all-files-exist no-op), and
with no subcommand the parser aborts the process with exit status 2 — the
in-function fallback returning 1 is unreachable. -/
theorem C9_cli_exit_codes (argv : List String) (fs : FS) (args : ScaffoldArgs) :
    (parse_args argv = .ok args → (cli_main argv fs).1 = .returned 0) ∧
    (parse_args argv = .error 2 → (cli_main argv fs).1 = .exited 2) ∧
    parse_args [] = .error 2 := by
  refine ⟨?_, ?_, rfl⟩
  · intro h
    simp [cli_main, h]
  · intro h
    simp [cli_main, h]

/-- Witness for C9 (amended): a parsed scaffold run returns 0; an empty
command line exits with status 2. -/
theorem C9_cli_exit_codes_witness :
    (cli_main ["scaffold"] []).1 = .returned 0 ∧
    (cli_main [] []).1 = .exited 2 :=
  ⟨(C9_cli_exit_codes ["scaffold"] [] ⟨".", false⟩).1 rfl,
   (C9_cli_exit_codes [] [] ⟨".", false⟩).2.1 rfl⟩

/-- The scaffold write loop without `overwrite`: existing files are
untouched, the returned paths are exactly the targets that were absent (in
iteration order), and afterwards every target exists. -/
theorem scaffoldLoop_no_overwrite_spec (base : String)
    (files : List (String × String)) (fs : FS)
    (hnd : (files.map (fun f => base ++ "/" ++ f.1)).Nodup) :
    (∀ p, (fs.get? p).isSome →
       (scaffoldLoop base false fs files).1.get? p = fs.get? p) ∧
    ((scaffoldLoop base false fs files).2 =
       (files.filter (fun f => !(fs.get? (base ++ "/" ++ f.1)).isSome)).map
         (fun f => base ++ "/" ++ f.1)) ∧
    (∀ f ∈ files,
       ((scaffoldLoop base false fs files).1.get? (base ++ "/" ++ f.1)).isSome) := by
  induction files generalizing fs with
  | nil => simp [scaffoldLoop]
  | cons hd rest ih =>
    obtain ⟨rel, content⟩ := hd
    simp only [List.map_cons, List.nodup_cons] at hnd
    obtain ⟨hnotin, hndrest⟩ := hnd
    by_cases hex : (fs.get? (base ++ "/" ++ rel)).isSome
    · have hstep : scaffoldLoop base false fs ((rel, content) :: rest) =
          scaffoldLoop base false fs rest := by
        simp [scaffoldLoop, hex]
      have ihh := ih fs hndrest
      refine ⟨?_, ?_, ?_⟩
      · intro p hp
        rw [hstep]
        exact ihh.1 p hp
      · rw [hstep, List.filter_cons]
        simp only [hex, Bool.not_true, Bool.false_eq_true, if_false, ite_false]
        exact ihh.2.1
      · intro f hf
        rw [hstep]
        rcases List.mem_cons.mp hf with rfl | hf
        · show ((scaffoldLoop base false fs rest).1.get? (base ++ "/" ++ rel)).isSome
          rw [ihh.1 _ hex]
          exact hex
        · exact ihh.2.2 f hf
    · have hnone : fs.get? (base ++ "/" ++ rel) = none :=
        Option.not_isSome_iff_eq_none.mp hex
      have hstep : scaffoldLoop base false fs ((rel, content) :: rest) =
          ((scaffoldLoop base false
              (fs.set (base ++ "/" ++ rel) content) rest).1,
           (base ++ "/" ++ rel) ::
             (scaffoldLoop base false
               (fs.set (base ++ "/" ++ rel) content) rest).2) := by
        simp [scaffoldLoop, hex]
      have ihh := ih (fs.set (base ++ "/" ++ rel) content) hndrest
      have hfr : ∀ f ∈ rest,
          (fs.set (base ++ "/" ++ rel) content).get? (base ++ "/" ++ f.1) =
            fs.get? (base ++ "/" ++ f.1) := by
        intro f hf
        refine Env.get_set_other _ _ _ _ ?_
        intro hc
        exact hnotin (hc ▸ List.mem_map_of_mem (fun g => base ++ "/" ++ g.1) hf)
      refine ⟨?_, ?_, ?_⟩
      · intro p hp
        have hpne : p ≠ base ++ "/" ++ rel := by
          intro hc
          rw [hc, hnone] at hp
          simp at hp
        have hset : (fs.set (base ++ "/" ++ rel) content).get? p = fs.get? p :=
          Env.get_set_other _ _ _ _ hpne
        rw [hstep]
        simp only []
        rw [ihh.1 p (by rw [hset]; exact hp), hset]
      · rw [hstep, List.filter_cons]
        simp only [hnone, Option.isSome_none, Bool.not_false, if_true, ite_true,
          List.map_cons]
        congr 1
        rw [ihh.2.1]
        congr 1
        refine List.filter_congr ?_
        intro f hf
        rw [hfr f hf]
      · intro f hf
        rw [hstep]
        rcases List.mem_cons.mp hf with rfl | hf
        · show ((scaffoldLoop base false
              (fs.set (base ++ "/" ++ rel) content) rest).1.get?
              (base ++ "/" ++ rel)).isSome
          rw [ihh.1 _ (by rw [Env.get_set_self]; rfl)]
          rw [Env.get_set_self]
          rfl
        · exact ihh.2.2 f hf

/-- When every target already exists, the loop writes nothing and returns
the filesystem unchanged with an empty created list. -/
theorem scaffoldLoop_all_exist (base : String) (files : List (String × String))
    (fs : FS) (h : ∀ f ∈ files, (fs.get? (base ++ "/" ++ f.1)).isSome) :
    scaffoldLoop base false fs files = (fs, []) := by
  induction files with
  | nil => simp [scaffoldLoop]
  | cons hd rest ih =>
    have hex : (fs.get? (base ++ "/" ++ hd.1)).isSome := h hd (by simp)
    have hstep : scaffoldLoop base false fs (hd :: rest) =
        scaffoldLoop base false fs rest := by
      obtain ⟨rel, content⟩ := hd
      simp only [scaffoldLoop]
      rw [if_pos]
      simp only at hex
      simp [hex]
    rw [hstep]
    exact ih (fun f hf => h f (by simp [hf]))

/-- The five scaffold targets are pairwise distinct under any base. -/
theorem scaffold_targets_nodup (base : String) :
    (scaffoldFiles.map (fun f => base ++ "/" ++ f.1)).Nodup := by
  have hmm : scaffoldFiles.map (fun f => base ++ "/" ++ f.1) =
      (scaffoldFiles.map Prod.fst).map (fun r => base ++ "/" ++ r) := by
    simp [List.map_map]
  rw [hmm]
  refine List.Nodup.map ?_ (by decide)
  intro x y hxy
  exact str_append_cancel (base ++ "/") x y hxy

/-- C10: `create_scaffold` with `overwrite=False` never modifies a file
that already exists, returns exactly the paths of the scaffold files it
newly wrote (those absent beforehand, in template order), and an immediate
second call on the resulting filesystem writes nothing and returns the
empty list. -/
theorem C10_create_scaffold_no_overwrite (base : String) (fs : FS) :
    (∀ p, (fs.get? p).isSome →
       (create_scaffold base fs false).1.get? p = fs.get? p) ∧
    ((create_scaffold base fs false).2 =
       (scaffoldFiles.filter (fun f => !(fs.get? (base ++ "/" ++ f.1)).isSome)).map
         (fun f => base ++ "/" ++ f.1)) ∧
    create_scaffold base (create_scaffold base fs false).1 false =
      ((create_scaffold base fs false).1, []) := by
  have hspec := scaffoldLoop_no_overwrite_spec base scaffoldFiles fs
    (scaffold_targets_nodup base)
  exact ⟨hspec.1, hspec.2.1,
    scaffoldLoop_all_exist base scaffoldFiles _ hspec.2.2⟩

/-- Witness for C10: with one template file pre-existing, its content
survives and exactly the other four paths are returned. -/
theorem C10_create_scaffold_no_overwrite_witness :
    (create_scaffold "/cog" [("/cog/db/tables.py", "original")] false).1.get?
      "/cog/db/tables.py" = some "original" ∧
    (create_scaffold "/cog" [("/cog/db/tables.py", "original")] false).2 =
      ["/cog/db/piccolo_conf.py", "/cog/db/piccolo_app.py",
       "/cog/db/__init__.py", "/cog/build.py"] :=
  ⟨(C10_create_scaffold_no_overwrite "/cog"
      [("/cog/db/tables.py", "original")]).1 "/cog/db/tables.py" (by decide),
   ((C10_create_scaffold_no_overwrite "/cog"
      [("/cog/db/tables.py", "original")]).2.1).trans (by decide)⟩

end RedbotOrm
